import Mathlib

/-!
# CLI-Mail: verification of the mailbox session + message model subsystem

Shallow embedding of the repository `leeyawn/CLI-Mail` (files
`src/cli_mail/models.py`, `src/cli_mail/parser.py`, `src/cli_mail/sender.py`,
`src/cli_mail/client.py`).  Python strings are Lean `String`s (decoded text;
byte-level charset decoding with `errors="replace"` is external stdlib
behaviour and is modelled as already performed), Python `int` arithmetic is
`Int`/`Nat`, the parsed `email.message.EmailMessage` object is the inductive
`Msg` below, and the IMAP transport (`imaplib` connection) is an oracle
`Transport` recording the protocol commands each operation issues.
External collaborators (the `html2text` converter, `parsedate_to_datetime`,
the wall clock) are parameters of the embedding, bundled in `PCfg`.
-/

namespace CliMail

/-! ## Python string primitives -/

/-- Python `\s` whitespace class (ASCII part, which is all the repository's
data contains). -/
def isSpc (c : Char) : Bool :=
  c = ' ' || c = '\t' || c = '\n' || c = '\r' || c = '\x0b' || c = '\x0c'

/-- Python `str.strip()` on a character list. -/
def pyStripL (l : List Char) : List Char :=
  ((l.dropWhile isSpc).reverse.dropWhile isSpc).reverse

/-- Python `str.strip()`. -/
def pyStrip (s : String) : String := String.mk (pyStripL s.data)

/-- Python `str.lower()` (ASCII case folding, all the subjects involved are
compared against ASCII prefixes). -/
def pyLower (s : String) : String := String.mk (s.data.map Char.toLower)

/-- `pre` is a prefix of `s` (Python `str.startswith`). -/
def startsWithL : List Char → List Char → Bool
  | [], _ => true
  | _ :: _, [] => false
  | p :: ps, c :: cs => p = c && startsWithL ps cs

/-- Python `str.startswith`. -/
def pyStartsWith (s pre : String) : Bool := startsWithL pre.data s.data

/-- `needle` occurs as a contiguous run inside `hay`
(Python `needle in hay`). -/
def substrInL (needle : List Char) : List Char → Bool
  | [] => startsWithL needle []
  | c :: rest => startsWithL needle (c :: rest) || substrInL needle rest

/-- Python `needle in hay` on strings. -/
def pySubstrIn (needle hay : String) : Bool := substrInL needle.data hay.data

/-- Python `str.split(",")`: split at every comma, keeping empty segments. -/
def pySplitComma : List Char → List (List Char)
  | [] => [[]]
  | c :: rest =>
    match pySplitComma rest with
    | [] => [[]]
    | g :: gs => if c = ',' then [] :: g :: gs else (c :: g) :: gs

mutual

/-- Python `str.split()` (split on runs of whitespace, dropping empties). -/
def pySplitWS : List Char → List String
  | [] => []
  | c :: rest => if isSpc c then pySplitWS rest else wsWord [c] rest

/-- Helper for `pySplitWS`: accumulates the current word (reversed). -/
def wsWord (acc : List Char) : List Char → List String
  | [] => [String.mk acc.reverse]
  | c :: rest =>
    if isSpc c then String.mk acc.reverse :: pySplitWS rest
    else wsWord (c :: acc) rest

end

/-- Python `sep.join(xs)` with `sep = ", "`. -/
def joinCS : List String → List Char
  | [] => []
  | [a] => a.data
  | a :: b :: rest => a.data ++ ',' :: ' ' :: joinCS (b :: rest)

/-- Python `", ".join(xs)` as a string. -/
def pyJoinCS (xs : List String) : String := String.mk (joinCS xs)

/-- Python `",".join(xs)`. -/
def joinC : List String → List Char
  | [] => []
  | [a] => a.data
  | a :: b :: rest => a.data ++ ',' :: joinC (b :: rest)

/-- Python `str.split(sep)[0]` for `sep = "@"`: the characters before the
first `'@'` (the whole string if there is none). -/
def localPart (s : String) : String := String.mk (s.data.takeWhile (· ≠ '@'))

/-! ## `models.py` -/

/-- Modelled from `email.utils.parseaddr` (Python stdlib, external to the
repository), restricted to the shapes the composer produces and the claims
exercise: either a bare address, or `Display Name <addr>` with no quoting,
backslash escapes or comments.  On those inputs the stdlib returns exactly
this: bare input strips surrounding whitespace with an empty display name;
bracketed input yields the stripped text before `<` and the text between
`<` and `>`. -/
def parseaddrM (s : String) : String × String :=
  if s.data.contains '<' then
    let name := String.mk (pyStripL (s.data.takeWhile (· ≠ '<')))
    let rest := (s.data.dropWhile (· ≠ '<')).drop 1
    (name, String.mk (rest.takeWhile (· ≠ '>')))
  else
    ("", pyStrip s)

/-- Modelled from `email.utils.formataddr` (Python stdlib), restricted to
display names free of the specials that force quoting: empty name renders
the bare address, otherwise `name <email>`. -/
def formataddrM (name email : String) : String :=
  if name = "" then email else name ++ " <" ++ email ++ ">"

/-- `models.Address`. -/
structure Address where
  name : String
  email : String
deriving Repr, DecidableEq

/-- `Address.from_header`: `parseaddr` the header, defaulting the display
name to the local part of the address (Python `name or email.split("@")[0]`,
where an empty parsed name is falsy). -/
def Address.fromHeader (header : String) : Address :=
  let p := parseaddrM header
  { name := if p.1 = "" then localPart p.2 else p.1, email := p.2 }

/-- `Address.__str__`. -/
def Address.str (a : Address) : String :=
  if a.name ≠ "" && a.name ≠ a.email then a.name ++ " <" ++ a.email ++ ">"
  else a.email

/-- Renders `f"{n/d:.1f}"` for a positive denominator, by rounding the exact
rational `n/d` to one decimal place, ties to even.  This coincides with
CPython's float formatting whenever `n/d` is exactly representable as a
double, in particular for every division by `1024` or `1024*1024` of a
`size < 2^53` (division by a power of two only shifts the exponent). -/
def fmtOneDec (n d : Nat) : String :=
  let t := 10 * n
  let q := t / d
  let r := t % d
  let rounded :=
    if 2 * r < d then q
    else if d < 2 * r then q + 1
    else if q % 2 = 0 then q else q + 1
  toString (rounded / 10) ++ "." ++ toString (rounded % 10)

/-- `models.Attachment` (payload bytes modelled as an abstract string;
`size` is the stored byte count). -/
structure Attachment where
  filename : String
  content_type : String
  size : Nat
  payload : String
deriving Repr, DecidableEq

/-- `Attachment.size_human`. -/
def Attachment.size_human (a : Attachment) : String :=
  if a.size < 1024 then toString a.size ++ " B"
  else if a.size < 1024 * 1024 then fmtOneDec a.size 1024 ++ " KB"
  else fmtOneDec a.size (1024 * 1024) ++ " MB"

/-- The value of an `Email.date` field: either the current wall-clock time
(used when the Date header is absent or unparseable) or the parsed header
text. -/
inductive DateVal where
  | now
  | parsed (raw : String)
deriving Repr, DecidableEq

/-- `models.Email` (the `date` field keeps the `DateVal` provenance; flags
are the set of flag tokens, modelled as the list the parser produced). -/
structure Email where
  uid : String
  message_id : String
  subject : String
  sender : Address
  «to» : List Address
  cc : List Address
  date : DateVal
  body_plain : String
  body_html : String
  attachments : List Attachment
  flags : List String
  in_reply_to : String
  references : String
deriving Repr, DecidableEq

/-- `Email.body`: Python `self.body_plain or self.body_html`. -/
def Email.body (e : Email) : String :=
  if e.body_plain ≠ "" then e.body_plain else e.body_html

/-- `models.EmailHeader`. -/
structure EmailHeader where
  uid : String
  subject : String
  sender : Address
  date : DateVal
  flags : List String
  has_attachments : Bool
deriving Repr, DecidableEq

/-- `models.Folder`. -/
structure Folder where
  name : String
  delimiter : String
  flags : List String
  total : Nat
  unread : Nat
deriving Repr, DecidableEq

/-- The slice of `models.AccountConfig` the composer consumes (`email` and
the display `name`; hosts/ports select the transport, which the embedding
does not model). -/
structure AccountConfig where
  email : String
  name : String
deriving Repr, DecidableEq

/-! ## The parsed message object (`email.message.EmailMessage`)

`parser.py` receives raw bytes and immediately hands them to the stdlib
parser `email.message_from_bytes`; every repository access to the result
goes through `get` (case-insensitive header lookup), `is_multipart`,
`walk`, `get_content_type`, `get_filename` and `get_payload(decode=True)`.
`Msg` models the parsed object at exactly that interface: `payload` is the
decoded (`errors="replace"`) text of a leaf part, `none` when
`get_payload(decode=True)` does not return bytes. -/

/-- A parsed MIME message/part. -/
inductive Msg where
  | simple (headers : List (String × String)) (ct : String)
      (filename : Option String) (payload : Option String)
  | multipart (headers : List (String × String)) (ct : String)
      (filename : Option String) (parts : List Msg)
deriving Repr

/-- The part's header fields. -/
def Msg.headers : Msg → List (String × String)
  | .simple h _ _ _ => h
  | .multipart h _ _ _ => h

/-- `get_content_type()`. -/
def Msg.ct : Msg → String
  | .simple _ c _ _ => c
  | .multipart _ c _ _ => c

/-- `get_filename()` (`none` when no filename parameter is present). -/
def Msg.filename : Msg → Option String
  | .simple _ _ f _ => f
  | .multipart _ _ f _ => f

/-- `is_multipart()`. -/
def Msg.isMultipart : Msg → Bool
  | .simple _ _ _ _ => false
  | .multipart _ _ _ _ => true

/-- `get_payload(decode=True)`: decoded bytes of a leaf part, `None` for a
multipart container. -/
def Msg.payloadDec : Msg → Option String
  | .simple _ _ _ p => p
  | .multipart _ _ _ _ => none

mutual

/-- `EmailMessage.walk()`: the part itself, then (for multiparts) every
subpart, depth-first. -/
def Msg.walk : Msg → List Msg
  | .simple h c f p => [.simple h c f p]
  | .multipart h c f parts => .multipart h c f parts :: walkParts parts

/-- `walk()` over a list of sibling parts. -/
def walkParts : List Msg → List Msg
  | [] => []
  | m :: ms => m.walk ++ walkParts ms

end

/-- `EmailMessage.get(name)`: first header whose name matches
case-insensitively, as an `Option`. -/
def getHeaderOpt (hs : List (String × String)) (name : String) : Option String :=
  (hs.find? (fun h => pyLower h.1 == pyLower name)).map (·.2)

/-- `EmailMessage.get(name, default)`. -/
def getHeader (hs : List (String × String)) (name default : String) : String :=
  (getHeaderOpt hs name).getD default

/-! ## `parser.py` -/

/-- The external collaborators of `parser.py`: the module-level `html2text`
converter `_h2t.handle` (configured with `body_width = 80`,
`ignore_images = False`, `ignore_links = False`, `protect_links = True`)
and the stdlib `parsedate_to_datetime` success predicate. -/
structure PCfg where
  h2t : String → String
  canParse : String → Bool

/-- `parser.html_to_text`: run the converter and strip the result. -/
def html_to_text (cfg : PCfg) (html : String) : String := pyStrip (cfg.h2t html)

/-- `parser._parse_address_list`. -/
def parse_address_list (header : Option String) : List Address :=
  match header with
  | none => []
  | some h =>
    if h = "" then []
    else
      ((pySplitComma h.data).map pyStripL).filterMap fun p =>
        if p.isEmpty then none else some (Address.fromHeader (String.mk p))

/-- `parser._parse_date`: missing header or a header the stdlib parser
rejects falls back to the current time. -/
def parse_date (cfg : PCfg) (m : Msg) : DateVal :=
  let ds := getHeader m.headers "Date" ""
  if ds = "" then .now
  else if cfg.canParse ds then .parsed ds else .now

/-- One iteration of the `_extract_body` multipart walk: skip parts whose
disposition mentions "attachment", record the first plain and first HTML
payloads. -/
def bodyStep (st : String × String) (p : Msg) : String × String :=
  let disp := getHeader p.headers "Content-Disposition" ""
  if pySubstrIn "attachment" disp then st
  else if p.ct == "text/plain" && st.1 == "" then
    match p.payloadDec with
    | some t => (t, st.2)
    | none => st
  else if p.ct == "text/html" && st.2 == "" then
    match p.payloadDec with
    | some t => (st.1, t)
    | none => st
  else st

/-- `_extract_body` before its final HTML-to-text fixup: the `(plain, html)`
pair collected from the part walk (multipart) or from the single payload. -/
def rawBody (m : Msg) : String × String :=
  if m.isMultipart then m.walk.foldl bodyStep ("", "")
  else
    match m.payloadDec with
    | some t => if m.ct == "text/html" then ("", t) else (t, "")
    | none => ("", "")

/-- `parser._extract_body`: the collected pair, with `body_plain`
synthesized from the HTML when only HTML is present. -/
def extract_body (cfg : PCfg) (m : Msg) : String × String :=
  let pb := rawBody m
  if pb.2 ≠ "" && pb.1 == "" then (html_to_text cfg pb.2, pb.2) else pb

/-- `_extract_attachments` treatment of one walked part. -/
def attStep (p : Msg) : Option Attachment :=
  let disp := getHeader p.headers "Content-Disposition" ""
  if !pySubstrIn "attachment" disp && !pySubstrIn "inline" disp then none
  else if (p.ct == "text/plain" || p.ct == "text/html")
      && !pySubstrIn "attachment" disp then none
  else
    let fn := match p.filename with
      | none => "unnamed"
      | some f => if f = "" then "unnamed" else f
    let payload := p.payloadDec.getD ""
    some ⟨fn, p.ct, payload.length, payload⟩

/-- `parser._extract_attachments`. -/
def extract_attachments (m : Msg) : List Attachment :=
  if !m.isMultipart then [] else m.walk.filterMap attStep

/-- `parser.parse_email` (the caller's `flags or set()` default is the
explicit list argument). -/
def parse_email (cfg : PCfg) (m : Msg) (uid : String) (flags : List String) :
    Email :=
  let pb := extract_body cfg m
  { uid := uid
    message_id := getHeader m.headers "Message-ID" ""
    subject := getHeader m.headers "Subject" "(no subject)"
    sender := Address.fromHeader (getHeader m.headers "From" "")
    «to» := parse_address_list (getHeaderOpt m.headers "To")
    cc := parse_address_list (getHeaderOpt m.headers "Cc")
    date := parse_date cfg m
    body_plain := pb.1
    body_html := pb.2
    attachments := extract_attachments m
    flags := flags
    in_reply_to := getHeader m.headers "In-Reply-To" ""
    references := getHeader m.headers "References" "" }

/-- `parser.parse_header`: header-only parse; `has_attachments` scans the
walked parts for an attachment disposition without touching payloads. -/
def parse_header (cfg : PCfg) (m : Msg) (uid : String) (flags : List String) :
    EmailHeader :=
  { uid := uid
    subject := getHeader m.headers "Subject" "(no subject)"
    sender := Address.fromHeader (getHeader m.headers "From" "")
    date := parse_date cfg m
    flags := flags
    has_attachments :=
      m.isMultipart && m.walk.any fun p =>
        pySubstrIn "attachment" (getHeader p.headers "Content-Disposition" "") }

/-! ## `sender.py` -/

/-- The line-ending normalization performed by `EmailMessage.set_content`
(stdlib): the encoded text is split on `\r`, `\n` and `\r\n` and rejoined
with the default policy's `\n` separator, so every `\r\n` pair and every
lone `\r` becomes `\n`. -/
def normNl : List Char → List Char
  | [] => []
  | [c] => [if c = '\r' then '\n' else c]
  | c :: d :: tl =>
    if c = '\r' then
      if d = '\n' then '\n' :: normNl tl
      else '\n' :: normNl (d :: tl)
    else c :: normNl (d :: tl)

/-- Modelled from `EmailMessage.set_content` (stdlib): the decoded payload
of the built message is the body with line endings normalized to `\n` and
a trailing newline appended when the normalized text does not already end
in one (CPython: `"a\r\n"` stores `b"a\n"`, `"a\rb"` stores `b"a\nb\n"`,
`"hello"` stores `b"hello\n"`, `"hello\n"` stores `b"hello\n"`). -/
def setContentText (body : String) : String :=
  let n := normNl body.data
  String.mk (if n.reverse.head? = some '\n' then n else n ++ ['\n'])

/-- The message-construction steps of `SMTPSender.send` (lines building the
`EmailMessage`; the SMTP transmission itself is outside the model).
`dateStr` stands for the external `formatdate(localtime=True)`. -/
def sendBuild (acct : AccountConfig) (dateStr : String) («to» : List String)
    (subject body : String) (cc : List String)
    (in_reply_to references : String) : Msg :=
  Msg.simple
    ([("From", formataddrM acct.name acct.email), ("To", pyJoinCS «to»)]
      ++ (if cc ≠ [] then [("Cc", pyJoinCS cc)] else [])
      ++ [("Subject", subject), ("Date", dateStr)]
      ++ (if in_reply_to ≠ "" then [("In-Reply-To", in_reply_to)] else [])
      ++ (if references ≠ "" then [("References", references)] else []))
    "text/plain" none (some (setContentText body))

/-- The subject computation of `SMTPSender.reply`. -/
def replySubject (subject : String) : String :=
  if pyStartsWith (pyLower subject) "re:" then subject else "Re: " ++ subject

/-- The subject computation of `SMTPSender.forward`. -/
def forwardSubject (subject : String) : String :=
  if pyStartsWith (pyLower subject) "fwd:" then subject
  else "Fwd: " ++ subject

/-- `SMTPSender.reply`: prefix the subject, extend the references chain,
send to the original sender. -/
def reply (acct : AccountConfig) (dateStr : String) (original : Email)
    (body : String) : Msg :=
  let subject := replySubject original.subject
  let refs :=
    if original.message_id ≠ "" then
      pyStrip (original.references ++ " " ++ original.message_id)
    else original.references
  sendBuild acct dateStr [original.sender.str] subject body []
    original.message_id refs

/-- `SMTPSender.forward`: prefix the subject, quote the original below the
user's preamble.  `fmtDate` stands for the external
`strftime("%a, %b %d, %Y at %I:%M %p")` on the original's datetime. -/
def forward (acct : AccountConfig) (dateStr : String)
    (fmtDate : DateVal → String) (original : Email) («to» : List String)
    (body : String) : Msg :=
  let subject := forwardSubject original.subject
  let fwd_body := body
    ++ "\n\n---------- Forwarded message ----------\n"
    ++ "From: " ++ original.sender.str ++ "\n"
    ++ "Date: " ++ fmtDate original.date ++ "\n"
    ++ "Subject: " ++ original.subject ++ "\n"
    ++ "To: " ++ pyJoinCS (original.«to».map Address.str) ++ "\n\n"
    ++ original.body
  sendBuild acct dateStr «to» subject fwd_body [] "" ""

/-! ## `client.py`: regex helpers

The module's patterns (`_LIST_PATTERN`, `_STATUS_PATTERN`, and the inline
`UID`/`FLAGS` searches) are translated as explicit scanners: `re.search`
tries the pattern at every position left to right, `re.match` anchors it at
the start. -/

/-- Consume an exact literal, returning the rest. -/
def dropLit : List Char → List Char → Option (List Char)
  | [], s => some s
  | _ :: _, [] => none
  | p :: ps, c :: cs => if p = c then dropLit ps cs else none

/-- Consume one-or-more characters satisfying `pred` (regex `X+`). -/
def takeWhile1 (pred : Char → Bool) (s : List Char) :
    Option (List Char × List Char) :=
  let w := s.takeWhile pred
  if w.isEmpty then none else some (w, s.dropWhile pred)

/-- `re.search`: first position where the pattern matches. -/
def scanFirst (p : List Char → Option α) : List Char → Option α
  | [] => p []
  | c :: rest =>
    match p (c :: rest) with
    | some a => some a
    | none => scanFirst p rest

/-- Python `int` of a digit string. -/
def digitsToNat (ds : List Char) : Nat :=
  ds.foldl (fun n c => 10 * n + (c.toNat - '0'.toNat)) 0

/-- `UID\s+(\d+)` at one position. -/
def uidAt (s : List Char) : Option String := do
  let s ← dropLit "UID".data s
  let (_, s) ← takeWhile1 isSpc s
  let (d, _) ← takeWhile1 Char.isDigit s
  pure (String.mk d)

/-- `client._extract_uid`: the captured digits, defaulting to `"0"`. -/
def extract_uid (meta : String) : String :=
  (scanFirst uidAt meta.data).getD "0"

/-- `FLAGS\s+\(([^)]*)\)` at one position, returning the split tokens. -/
def flagsAt (s : List Char) : Option (List String) := do
  let s ← dropLit "FLAGS".data s
  let (_, s) ← takeWhile1 isSpc s
  let s ← dropLit "(".data s
  let inner := s.takeWhile (· ≠ ')')
  let s ← dropLit ")".data (s.dropWhile (· ≠ ')'))
  let _ := s
  pure (pySplitWS inner)

/-- `client._extract_flags`: the whitespace-split tokens of the captured
group (each token is already stripped and non-empty), empty when the
pattern does not occur. -/
def extract_flags (meta : String) : List String :=
  (scanFirst flagsAt meta.data).getD []

/-- `\(MESSAGES\s+(\d+)\s+UNSEEN\s+(\d+)\)` at one position. -/
def statusAt (s : List Char) : Option (Nat × Nat) := do
  let s ← dropLit "(MESSAGES".data s
  let (_, s) ← takeWhile1 isSpc s
  let (d1, s) ← takeWhile1 Char.isDigit s
  let (_, s) ← takeWhile1 isSpc s
  let s ← dropLit "UNSEEN".data s
  let (_, s) ← takeWhile1 isSpc s
  let (d2, s) ← takeWhile1 Char.isDigit s
  let _ ← dropLit ")".data s
  pure (digitsToNat d1, digitsToNat d2)

/-- `_LIST_PATTERN.match(line)`: parenthesized flags, quoted delimiter,
optionally quoted name.  Returns the split flag tokens, the delimiter, and
the stripped name, as `list_folders` consumes them. -/
def listMatch (line : String) : Option (List String × String × String) := do
  let s ← dropLit "(".data line.data
  let fl := s.takeWhile (· ≠ ')')
  let s ← dropLit ")".data (s.dropWhile (· ≠ ')'))
  let (_, s) ← takeWhile1 isSpc s
  let s ← dropLit "\"".data s
  let dl := s.takeWhile (· ≠ '"')
  let s ← dropLit "\"".data (s.dropWhile (· ≠ '"'))
  let (_, s) ← takeWhile1 isSpc s
  let s := match s with
    | '"' :: r => r
    | _ => s
  let nm := s.takeWhile (· ≠ '"')
  pure (pySplitWS fl, String.mk dl, String.mk (pyStripL nm))

/-! ## `client.py`: session operations

The `imaplib` connection is a response oracle; each operation returns its
result (`Except Err`, mirroring the exceptions the method can raise) paired
with the ordered list of protocol commands it issued. -/

/-- One element of an `imaplib` fetch `data` list: a `(metadata, payload)`
tuple, `None`, or any other item (e.g. a stray `b")"` line). -/
inductive Item where
  | tup (meta : String) (raw : Msg)
  | noneIt
  | other

/-- A protocol command issued on the connection. -/
inductive Cmd where
  | listCmd
  | statusCmd (arg : String)
  | selectCmd (arg : String)
  | fetchCmd (range : String)
  | uidFetchCmd (uid : String)
  | storeCmd (uid flagsOp flag : String)
  | copyCmd (uid dest : String)
  | searchCmd (criteria : String)
  | expungeCmd
deriving Repr, DecidableEq

/-- The response oracle for one connected `imaplib` session.  `Option
String` data slots model Python truthiness (`none` = `None` or empty);
`copyR` may raise (`Except.error`), matching the `try` in `move_email`. -/
structure Transport where
  listR : String × List (Option String)
  statusR : String → String × Option String
  selectR : String → String × Nat
  fetchR : String → String × List Item
  uidFetchR : String → String × List Item
  storeR : (uid flagsOp flag : String) → String
  copyR : (uid dest : String) → Except Unit String
  searchR : String → String × Option String

/-- Exceptions raised by `IMAPClient` methods. -/
inductive Err where
  | notConnected
  | cannotSelect (folder : String)
deriving Repr, DecidableEq

/-- The `f'"{name}"'` quoting applied to folder arguments. -/
def quoteF (name : String) : String := "\"" ++ name ++ "\""

/-- `IMAPClient.select_folder`: raises when disconnected (the `conn`
property) or when the select response is not OK. -/
def select_folder (c : Option Transport) (folder : String) :
    Except Err Nat × List Cmd :=
  match c with
  | none => (.error .notConnected, [])
  | some t =>
    let (st, n) := t.selectR (quoteF folder)
    if st = "OK" then (.ok n, [.selectCmd (quoteF folder)])
    else (.error (.cannotSelect folder), [.selectCmd (quoteF folder)])

/-- `IMAPClient.list_folders`: parse each listing line, issue one status
query per parsed folder, zeroing counters when the status lookup fails. -/
def list_folders (c : Option Transport) :
    Except Err (List Folder) × List Cmd :=
  match c with
  | none => (.error .notConnected, [])
  | some t =>
    let (st, data) := t.listR
    if st ≠ "OK" then (.ok [], [.listCmd])
    else
      let res := data.foldl (fun acc item =>
        match item with
        | none => acc
        | some line =>
          match listMatch line with
          | none => acc
          | some (fl, dl, nm) =>
            let q := quoteF nm
            let (st2, d2) := t.statusR q
            let tu :=
              if st2 = "OK" then
                match d2 with
                | some ds =>
                  match scanFirst statusAt ds.data with
                  | some p => p
                  | none => (0, 0)
                | none => (0, 0)
              else (0, 0)
            (acc.1 ++ [⟨nm, dl, fl, tu.1, tu.2⟩], acc.2 ++ [.statusCmd q]))
        (([] : List Folder), [Cmd.listCmd])
      (.ok res.1, res.2)

/-- The `while i < len(data)` loop shared by `fetch_headers` and `search`:
a tuple item is parsed and the index advances by two (skipping the closing
delimiter item that follows it in real responses); any other item advances
by one. -/
def processItems (cfg : PCfg) : List Item → List EmailHeader
  | [] => []
  | [.tup meta raw] =>
    [parse_header cfg raw (extract_uid meta) (extract_flags meta)]
  | .tup meta raw :: _ :: rest =>
    parse_header cfg raw (extract_uid meta) (extract_flags meta) ::
      processItems cfg rest
  | .noneIt :: rest => processItems cfg rest
  | .other :: rest => processItems cfg rest

/-- `IMAPClient.fetch_headers`: newest-first pagination over the 1-based
sequence space. -/
def fetch_headers (cfg : PCfg) (c : Option Transport) (folder : String)
    (limit offset : Int) : Except Err (List EmailHeader) × List Cmd :=
  match c with
  | none => (.error .notConnected, [])
  | some t =>
    match select_folder (some t) folder with
    | (.error e, tr) => (.error e, tr)
    | (.ok totalN, tr) =>
      let total : Int := totalN
      if total = 0 then (.ok [], tr)
      else
        let start := max 1 (total - offset - limit + 1)
        let stop := max 1 (total - offset)
        if stop < start then (.ok [], tr)
        else
          let rng := toString start ++ ":" ++ toString stop
          let (st, data) := t.fetchR rng
          if st ≠ "OK" then (.ok [], tr ++ [.fetchCmd rng])
          else (.ok (processItems cfg data).reverse, tr ++ [.fetchCmd rng])

/-- `IMAPClient.fetch_email`: full fetch by UID; a missing message is the
`none` result, not an error. -/
def fetch_email (cfg : PCfg) (c : Option Transport) (uid folder : String) :
    Except Err (Option Email) × List Cmd :=
  match c with
  | none => (.error .notConnected, [])
  | some t =>
    match select_folder (some t) folder with
    | (.error e, tr) => (.error e, tr)
    | (.ok _, tr) =>
      let (st, data) := t.uidFetchR uid
      let tr := tr ++ [Cmd.uidFetchCmd uid]
      if st ≠ "OK" then (.ok none, tr)
      else
        match data with
        | [] => (.ok none, tr)
        | .noneIt :: _ => (.ok none, tr)
        | .tup meta raw :: _ =>
          (.ok (some (parse_email cfg raw uid (extract_flags meta))), tr)
        | .other :: _ => (.ok none, tr)

/-- The query sanitization in `IMAPClient.search`:
`query.replace("\\", "\\\\").replace('"', '\\"')`.  Both replacements
target distinct single characters and neither replacement text contains
the other pattern character, so the sequential replaces equal this single
pass. -/
def sanitize (q : String) : String :=
  String.mk (q.data.flatMap fun c =>
    if c = '\\' then ['\\', '\\']
    else if c = '"' then ['\\', '"']
    else [c])

/-- The search criteria string `(OR (SUBJECT "...") (FROM "..."))`. -/
def criteria (query : String) : String :=
  "(OR (SUBJECT \"" ++ sanitize query ++ "\") (FROM \"" ++ sanitize query
    ++ "\"))"

/-- `IMAPClient.search`: sanitize, search, cap to the tail 50 ids, fetch
their headers, newest-first. -/
def search (cfg : PCfg) (c : Option Transport) (query folder : String) :
    Except Err (List EmailHeader) × List Cmd :=
  match c with
  | none => (.error .notConnected, [])
  | some t =>
    match select_folder (some t) folder with
    | (.error e, tr) => (.error e, tr)
    | (.ok _, tr) =>
      let crit := criteria query
      let (st, d0) := t.searchR crit
      let tr := tr ++ [Cmd.searchCmd crit]
      if st ≠ "OK" then (.ok [], tr)
      else
        match d0 with
        | none => (.ok [], tr)
        | some ds =>
          let ids := pySplitWS ds.data
          let msg_nums := ids.drop (ids.length - 50)
          if msg_nums = [] then (.ok [], tr)
          else
            let rng := String.mk (joinC msg_nums)
            let (st2, data) := t.fetchR rng
            let tr := tr ++ [Cmd.fetchCmd rng]
            if st2 ≠ "OK" then (.ok [], tr)
            else (.ok (processItems cfg data).reverse, tr)

/-- `IMAPClient.set_flag`. -/
def set_flag (c : Option Transport) (uid flag folder : String) :
    Except Err Bool × List Cmd :=
  match c with
  | none => (.error .notConnected, [])
  | some t =>
    match select_folder (some t) folder with
    | (.error e, tr) => (.error e, tr)
    | (.ok _, tr) =>
      let st := t.storeR uid "+FLAGS" flag
      (.ok (st = "OK"), tr ++ [Cmd.storeCmd uid "+FLAGS" flag])

/-- `IMAPClient.remove_flag`. -/
def remove_flag (c : Option Transport) (uid flag folder : String) :
    Except Err Bool × List Cmd :=
  match c with
  | none => (.error .notConnected, [])
  | some t =>
    match select_folder (some t) folder with
    | (.error e, tr) => (.error e, tr)
    | (.ok _, tr) =>
      let st := t.storeR uid "-FLAGS" flag
      (.ok (st = "OK"), tr ++ [Cmd.storeCmd uid "-FLAGS" flag])

/-- `IMAPClient.delete_email`: a failed flag-set short-circuits without
expunging. -/
def delete_email (c : Option Transport) (uid folder : String) :
    Except Err Bool × List Cmd :=
  match set_flag c uid "\\Deleted" folder with
  | (.error e, tr) => (.error e, tr)
  | (.ok false, tr) => (.ok false, tr)
  | (.ok true, tr) => (.ok true, tr ++ [Cmd.expungeCmd])

/-- `IMAPClient.move_email`: copy, then (only on an OK copy) mark deleted
and expunge; any exception inside the `try` yields `false`. -/
def move_email (c : Option Transport) (uid dest src : String) :
    Except Err Bool × List Cmd :=
  match c with
  | none => (.error .notConnected, [])
  | some t =>
    match select_folder (some t) src with
    | (.error e, tr) => (.error e, tr)
    | (.ok _, tr) =>
      match t.copyR uid dest with
      | .error _ => (.ok false, tr ++ [Cmd.copyCmd uid dest])
      | .ok st =>
        if st = "OK" then
          match set_flag (some t) uid "\\Deleted" src with
          | (.error _, tr2) => (.ok false, tr ++ [Cmd.copyCmd uid dest] ++ tr2)
          | (.ok _, tr2) =>
            (.ok true,
              tr ++ [Cmd.copyCmd uid dest] ++ tr2 ++ [Cmd.expungeCmd])
        else (.ok false, tr ++ [Cmd.copyCmd uid dest])

/-- `IMAPClient.folder_status`: counters for a folder without selecting
it, zeroed when the response is unusable. -/
def folder_status (c : Option Transport) (folder : String) :
    Except Err (Nat × Nat) × List Cmd :=
  match c with
  | none => (.error .notConnected, [])
  | some t =>
    let q := quoteF folder
    let (st, d) := t.statusR q
    if st = "OK" then
      match d with
      | some ds =>
        match scanFirst statusAt ds.data with
        | some p => (.ok p, [Cmd.statusCmd q])
        | none => (.ok (0, 0), [Cmd.statusCmd q])
      | none => (.ok (0, 0), [Cmd.statusCmd q])
    else (.ok (0, 0), [Cmd.statusCmd q])

/-! ## Shared fixtures and helper lemmas -/

/-- A concrete parser configuration for witnesses: the HTML converter is
the identity, the date parser rejects everything. -/
def cfgW : PCfg := ⟨fun s => s, fun _ => false⟩

/-- A concrete account for witnesses. -/
def acctW : AccountConfig := ⟨"me@example.com", "me"⟩

/-- The shape of a well-formed fetch response: each `(metadata, payload)`
tuple is followed by its closing-delimiter item, as `imaplib` returns. -/
def interleave (pairs : List (String × Msg)) : List Item :=
  pairs.flatMap fun p => [Item.tup p.1 p.2, Item.other]

/-- Parse one fetch tuple as the processing loop does. -/
def parsePair (cfg : PCfg) (p : String × Msg) : EmailHeader :=
  parse_header cfg p.2 (extract_uid p.1) (extract_flags p.1)

theorem processItems_interleave (cfg : PCfg) (pairs : List (String × Msg)) :
    processItems cfg (interleave pairs) = pairs.map (parsePair cfg) := by
  induction pairs with
  | nil => rfl
  | cons p rest ih =>
    cases rest with
    | nil => rfl
    | cons q rs =>
      show parsePair cfg p :: processItems cfg (interleave (q :: rs))
          = parsePair cfg p :: (q :: rs).map (parsePair cfg)
      rw [ih]

theorem pyLower_re_prefix (s : String) :
    pyStartsWith (pyLower ("Re: " ++ s)) "re:" = true := by
  simp only [pyStartsWith, pyLower, String.data_append, List.map_append]
  rfl

theorem pyLower_fwd_prefix (s : String) :
    pyStartsWith (pyLower ("Fwd: " ++ s)) "fwd:" = true := by
  simp only [pyStartsWith, pyLower, String.data_append, List.map_append]
  rfl

theorem replySubject_idem (s : String) :
    replySubject (replySubject s) = replySubject s := by
  unfold replySubject
  by_cases h : pyStartsWith (pyLower s) "re:" = true
  · simp [h]
  · simp only [h, if_neg, Bool.not_eq_true] at *
    simp [h, pyLower_re_prefix]

theorem forwardSubject_idem (s : String) :
    forwardSubject (forwardSubject s) = forwardSubject s := by
  unfold forwardSubject
  by_cases h : pyStartsWith (pyLower s) "fwd:" = true
  · simp [h]
  · simp [h, pyLower_fwd_prefix]

/-! ## Claims -/

/-- C8: every mailbox operation invoked while the session is disconnected
(`_conn is None`) raises the distinguished not-connected failure (the
`conn` property's `ConnectionError`) and issues no protocol command. -/
theorem c8_disconnected_ops (cfg : PCfg) (folder uid flag dest src query : String)
    (limit offset : Int) :
    list_folders none = (.error .notConnected, []) ∧
    select_folder none folder = (.error .notConnected, []) ∧
    fetch_headers cfg none folder limit offset = (.error .notConnected, []) ∧
    fetch_email cfg none uid folder = (.error .notConnected, []) ∧
    search cfg none query folder = (.error .notConnected, []) ∧
    set_flag none uid flag folder = (.error .notConnected, []) ∧
    remove_flag none uid flag folder = (.error .notConnected, []) ∧
    delete_email none uid folder = (.error .notConnected, []) ∧
    move_email none uid dest src = (.error .notConnected, []) ∧
    folder_status none folder = (.error .notConnected, []) :=
  ⟨rfl, rfl, rfl, rfl, rfl, rfl, rfl, rfl, rfl, rfl⟩

/-- C10: a non-multipart message yields no attachments from `parse_email`
and `has_attachments = false` from `parse_header`, whatever its own
headers say — in particular even when its own `Content-Disposition`
header (an arbitrary entry of `hs`) marks it as an attachment. -/
theorem c10_nonmultipart_no_attachments (cfg : PCfg)
    (hs : List (String × String)) (ct : String) (fn payload : Option String)
    (uid : String) (flags : List String) :
    (parse_email cfg (.simple hs ct fn payload) uid flags).attachments = [] ∧
    (parse_header cfg (.simple hs ct fn payload) uid flags).has_attachments
      = false :=
  ⟨rfl, rfl⟩

/-- C9: `size_human` renders with 1024-based thresholds — below 1024 as
`"N B"`, below 1 MiB as one-decimal KB, else one-decimal MB — and in
particular 500 → `"500 B"`, 2048 → `"2.0 KB"`, 3500000 → `"3.3 MB"`. -/
theorem c9_size_human_rendering (a : Attachment) :
    (a.size < 1024 → a.size_human = toString a.size ++ " B") ∧
    (1024 ≤ a.size → a.size < 1024 * 1024 →
      a.size_human = fmtOneDec a.size 1024 ++ " KB") ∧
    (1024 * 1024 ≤ a.size →
      a.size_human = fmtOneDec a.size (1024 * 1024) ++ " MB") ∧
    (Attachment.mk "a" "t" 500 "p").size_human = "500 B" ∧
    (Attachment.mk "a" "t" 2048 "p").size_human = "2.0 KB" ∧
    (Attachment.mk "a" "t" 3500000 "p").size_human = "3.3 MB" := by
  refine ⟨?_, ?_, ?_, rfl, rfl, rfl⟩
  · intro h
    simp [Attachment.size_human, h]
  · intro h1 h2
    have h3 : ¬ a.size < 1024 := by omega
    simp [Attachment.size_human, h3, h2]
  · intro h1
    have h3 : ¬ a.size < 1024 := by omega
    have h4 : ¬ a.size < 1024 * 1024 := by omega
    simp [Attachment.size_human, h3, h4]

/-- C9 witness: the KB branch at the concrete size 2048. -/
theorem c9_size_human_rendering_witness :
    (1024 ≤ 2048 ∧ 2048 < 1024 * 1024) ∧
    (Attachment.mk "a" "t" 2048 "p").size_human = fmtOneDec 2048 1024 ++ " KB" :=
  ⟨⟨by decide, by decide⟩,
    (c9_size_human_rendering (Attachment.mk "a" "t" 2048 "p")).2.1
      (by decide) (by decide)⟩

/-- C4: `reply` prefixes the outgoing Subject header with `"Re: "` exactly
when the original subject does not already start with `"re:"`
case-insensitively, `forward` does the same for `"Fwd: "`, and both
subject rules are idempotent (no double prefix). -/
theorem c4_subject_prefixing (acct : AccountConfig) (dateStr body : String)
    (fmtDate : DateVal → String) (o : Email) (tos : List String) :
    (pyStartsWith (pyLower o.subject) "re:" = false →
      getHeader (reply acct dateStr o body).headers "Subject" ""
        = "Re: " ++ o.subject) ∧
    (pyStartsWith (pyLower o.subject) "re:" = true →
      getHeader (reply acct dateStr o body).headers "Subject" "" = o.subject) ∧
    replySubject (replySubject o.subject) = replySubject o.subject ∧
    (pyStartsWith (pyLower o.subject) "fwd:" = false →
      getHeader (forward acct dateStr fmtDate o tos body).headers "Subject" ""
        = "Fwd: " ++ o.subject) ∧
    (pyStartsWith (pyLower o.subject) "fwd:" = true →
      getHeader (forward acct dateStr fmtDate o tos body).headers "Subject" ""
        = o.subject) ∧
    forwardSubject (forwardSubject o.subject) = forwardSubject o.subject := by
  have hr : getHeader (reply acct dateStr o body).headers "Subject" ""
      = replySubject o.subject := rfl
  have hf : getHeader (forward acct dateStr fmtDate o tos body).headers
      "Subject" "" = forwardSubject o.subject := rfl
  refine ⟨?_, ?_, replySubject_idem o.subject, ?_, ?_,
    forwardSubject_idem o.subject⟩
  · intro h
    rw [hr]
    simp [replySubject, h]
  · intro h
    rw [hr]
    simp [replySubject, h]
  · intro h
    rw [hf]
    simp [forwardSubject, h]
  · intro h
    rw [hf]
    simp [forwardSubject, h]

/-- C4 witness: a fresh subject gains the prefix, an already-prefixed
subject is left unchanged, for both reply and forward. -/
theorem c4_subject_prefixing_witness :
    (pyStartsWith (pyLower "Hello") "re:" = false ∧
      getHeader (reply acctW "d"
        { uid := "1", message_id := "", subject := "Hello",
          sender := ⟨"b", "b@x.com"⟩, «to» := [], cc := [], date := .now,
          body_plain := "", body_html := "", attachments := [], flags := [],
          in_reply_to := "", references := "" } "b").headers "Subject" ""
        = "Re: Hello") ∧
    (pyStartsWith (pyLower "Re: Hello") "re:" = true ∧
      getHeader (reply acctW "d"
        { uid := "1", message_id := "", subject := "Re: Hello",
          sender := ⟨"b", "b@x.com"⟩, «to» := [], cc := [], date := .now,
          body_plain := "", body_html := "", attachments := [], flags := [],
          in_reply_to := "", references := "" } "b").headers "Subject" ""
        = "Re: Hello") :=
  ⟨⟨by decide, ((c4_subject_prefixing acctW "d" "b" (fun _ => "") _ []).1
      (by decide))⟩,
    ⟨by decide, ((c4_subject_prefixing acctW "d" "b" (fun _ => "") _ []).2.1
      (by decide))⟩⟩

/-- C2: on a 30-message folder, `fetch_headers(limit=20, offset=0)` issues
exactly one fetch, for sequence range `11:30`, and returns the 20 parsed
headers with the batch reversed (newest first). -/
theorem c2_fetch_headers_window (cfg : PCfg) (t : Transport) (folder : String)
    (pairs : List (String × Msg))
    (hsel : t.selectR (quoteF folder) = ("OK", 30))
    (hlen : pairs.length = 20)
    (hfetch : t.fetchR "11:30" = ("OK", interleave pairs)) :
    fetch_headers cfg (some t) folder 20 0 =
      (.ok ((pairs.map (parsePair cfg)).reverse),
        [.selectCmd (quoteF folder), .fetchCmd "11:30"]) ∧
    ∃ hs, (fetch_headers cfg (some t) folder 20 0).1 = .ok hs
      ∧ hs.length = 20 := by
  have h1 : select_folder (some t) folder
      = (.ok 30, [.selectCmd (quoteF folder)]) := by
    simp [select_folder, hsel]
  have hmain : fetch_headers cfg (some t) folder 20 0 =
      (.ok ((pairs.map (parsePair cfg)).reverse),
        [.selectCmd (quoteF folder), .fetchCmd "11:30"]) := by
    unfold fetch_headers
    dsimp only
    rw [h1]
    norm_num
    rw [show toString (11 : Int) ++ ":" ++ toString (30 : Int) = "11:30" from
      rfl]
    simp [hfetch, processItems_interleave]
  refine ⟨hmain, (pairs.map (parsePair cfg)).reverse, ?_, ?_⟩
  · rw [hmain]
  · simp [hlen]

/-- The metadata/message pairs of the `11:30` window of a concrete
30-message folder. -/
def pairsW : List (String × Msg) :=
  (List.range 20).map fun k =>
    ("UID " ++ toString (k + 11) ++ " FLAGS (\\Seen)",
     Msg.simple [("Subject", toString (k + 11)), ("From", "a@b.c")]
       "text/plain" none (some "x"))

/-- A transport serving a 30-message folder. -/
def tW2 : Transport where
  listR := ("OK", [])
  statusR := fun _ => ("OK", none)
  selectR := fun _ => ("OK", 30)
  fetchR := fun r => if r = "11:30" then ("OK", interleave pairsW)
    else ("NO", [])
  uidFetchR := fun _ => ("NO", [])
  storeR := fun _ _ _ => "OK"
  copyR := fun _ _ => .ok "OK"
  searchR := fun _ => ("NO", none)

/-- C2 witness: the concrete 30-message transport. -/
theorem c2_fetch_headers_window_witness :
    fetch_headers cfgW (some tW2) "INBOX" 20 0 =
      (.ok ((pairsW.map (parsePair cfgW)).reverse),
        [.selectCmd (quoteF "INBOX"), .fetchCmd "11:30"]) ∧
    ∃ hs, (fetch_headers cfgW (some tW2) "INBOX" 20 0).1 = .ok hs
      ∧ hs.length = 20 :=
  c2_fetch_headers_window cfgW tW2 "INBOX" pairsW rfl (by simp [pairsW]) rfl

/-- The oldest (and only) message of a concrete 1-message folder. -/
def msgW1 : Msg :=
  .simple [("Subject", "old"), ("From", "a@b.c")] "text/plain" none (some "x")

/-- A transport serving a 1-message folder. -/
def tW1 : Transport where
  listR := ("OK", [])
  statusR := fun _ => ("OK", none)
  selectR := fun _ => ("OK", 1)
  fetchR := fun r =>
    if r = "1:1" then ("OK", [Item.tup "1 (UID 7 FLAGS (\\Seen)" msgW1,
      Item.other])
    else ("NO", [])
  uidFetchR := fun _ => ("NO", [])
  storeR := fun _ _ _ => "OK"
  copyR := fun _ _ => .ok "OK"
  searchR := fun _ => ("NO", none)

/-- C1 (refuted by the code): with `total = 1`, `limit = 1`, `offset = 1`
(so `offset ≥ total ≥ 1` and `limit ≥ 1`), both window bounds clamp to 1
(`start = max(1, -1+1+... ) = 1`, `end = max(1, 0) = 1`), the `start > end`
guard does not fire, a fetch for `1:1` is issued, and the oldest message's
header is returned — not the empty list the claim requires. -/
theorem c1_offset_past_end_fetches_oldest :
    fetch_headers cfgW (some tW1) "INBOX" 1 1 =
      (.ok [parse_header cfgW msgW1 "7" ["\\Seen"]],
        [.selectCmd (quoteF "INBOX"), .fetchCmd "1:1"]) ∧
    ([parse_header cfgW msgW1 "7" ["\\Seen"]] : List EmailHeader) ≠ [] :=
  ⟨rfl, by simp⟩

/-- C6: when the copy step of `move_email` fails — `conn.uid("copy", ...)`
raises, or returns a non-OK status — the operation returns `false` and the
command trace contains neither a store of the deleted flag nor an expunge:
the source message is left undeleted. -/
theorem c6_move_copy_fail_no_expunge (t : Transport) (uid dest src : String)
    (n : Nat) (hsel : t.selectR (quoteF src) = ("OK", n))
    (hcopy : ∀ st, t.copyR uid dest = .ok st → st ≠ "OK") :
    move_email (some t) uid dest src =
      (.ok false, [.selectCmd (quoteF src), .copyCmd uid dest]) ∧
    (∀ u op fl, Cmd.storeCmd u op fl ∉ (move_email (some t) uid dest src).2) ∧
    Cmd.expungeCmd ∉ (move_email (some t) uid dest src).2 := by
  have h1 : select_folder (some t) src = (.ok n, [.selectCmd (quoteF src)]) := by
    simp [select_folder, hsel]
  have hm : move_email (some t) uid dest src =
      (.ok false, [.selectCmd (quoteF src), .copyCmd uid dest]) := by
    unfold move_email
    dsimp only
    rw [h1]
    cases hc : t.copyR uid dest with
    | error e => simp [hc]
    | ok st =>
      have hne := hcopy st hc
      simp [hc, hne]
  refine ⟨hm, ?_, ?_⟩
  · intro u op fl
    rw [hm]
    simp
  · rw [hm]
    simp

/-- A transport whose copy command returns a non-OK status. -/
def tW6 : Transport where
  listR := ("OK", [])
  statusR := fun _ => ("OK", none)
  selectR := fun _ => ("OK", 5)
  fetchR := fun _ => ("NO", [])
  uidFetchR := fun _ => ("NO", [])
  storeR := fun _ _ _ => "OK"
  copyR := fun _ _ => .ok "NO"
  searchR := fun _ => ("NO", none)

/-- C6 witness: a concrete failed copy. -/
theorem c6_move_copy_fail_no_expunge_witness :
    move_email (some tW6) "9" "Archive" "INBOX" =
      (.ok false, [.selectCmd (quoteF "INBOX"), .copyCmd "9" "Archive"]) ∧
    (∀ u op fl,
      Cmd.storeCmd u op fl ∉ (move_email (some tW6) "9" "Archive" "INBOX").2) ∧
    Cmd.expungeCmd ∉ (move_email (some tW6) "9" "Archive" "INBOX").2 :=
  c6_move_copy_fail_no_expunge tW6 "9" "Archive" "INBOX" 5 rfl
    (fun st h => by injection h with h2; subst h2; decide)

/-! ## C5 helper machinery: the address grammar on which the stdlib
`parseaddr`/`formataddr` models are exact. -/

/-- A display name the composer may use without triggering `formataddr`
quoting: non-empty and purely alphanumeric. -/
def goodName (s : String) : Bool :=
  !s.data.isEmpty && s.data.all Char.isAlphanum

/-- A plain recipient address: non-empty, made of alphanumerics and
`@ . - _` — in particular free of commas, angle brackets, quotes and
whitespace, so the join/split/strip/parseaddr pipeline is exact on it. -/
def goodAddr (s : String) : Bool :=
  !s.data.isEmpty && s.data.all fun c =>
    c.isAlphanum || c = '@' || c = '.' || c = '-' || c = '_'

theorem ne_of_alphanum {c d : Char} (h : c.isAlphanum = true)
    (hd : d.isAlphanum = false) : c ≠ d := by
  intro he
  subst he
  rw [h] at hd
  cases hd

theorem alphanum_not_spc {c : Char} (h : c.isAlphanum = true) :
    isSpc c = false := by
  by_contra hc
  have h2 : isSpc c = true := by
    cases h3 : isSpc c
    · exact absurd h3 hc
    · rfl
  simp only [isSpc, Bool.or_eq_true, decide_eq_true_eq] at h2
  rcases h2 with ((((h1 | h1) | h1) | h1) | h1) | h1 <;> subst h1 <;>
    exact absurd h (by decide)

theorem goodAddr_char {c : Char}
    (h : (c.isAlphanum || c = '@' || c = '.' || c = '-' || c = '_') = true) :
    c ≠ '<' ∧ c ≠ '>' ∧ c ≠ ',' ∧ isSpc c = false := by
  simp only [Bool.or_eq_true, decide_eq_true_eq] at h
  rcases h with (((ha | h1) | h1) | h1) | h1
  · exact ⟨ne_of_alphanum ha (by decide), ne_of_alphanum ha (by decide),
      ne_of_alphanum ha (by decide), alphanum_not_spc ha⟩
  all_goals subst h1
  all_goals exact ⟨by decide, by decide, by decide, by decide⟩

theorem dropWhile_eq_self_of_all {p : Char → Bool} {l : List Char}
    (h : ∀ c ∈ l, p c = false) : l.dropWhile p = l := by
  cases l with
  | nil => rfl
  | cons c cs => simp [List.dropWhile, h c (List.mem_cons_self c cs)]

theorem takeWhile_append_of_all {p : Char → Bool} {l1 l2 : List Char}
    (h : ∀ c ∈ l1, p c = true) :
    (l1 ++ l2).takeWhile p = l1 ++ l2.takeWhile p := by
  induction l1 with
  | nil => rfl
  | cons c cs ih =>
    simp only [List.cons_append, List.takeWhile_cons,
      h c (List.mem_cons_self c cs), if_true]
    rw [ih fun d hd => h d (List.mem_cons_of_mem c hd)]

theorem dropWhile_append_of_all {p : Char → Bool} {l1 l2 : List Char}
    (h : ∀ c ∈ l1, p c = true) :
    (l1 ++ l2).dropWhile p = l2.dropWhile p := by
  induction l1 with
  | nil => rfl
  | cons c cs ih =>
    simp only [List.cons_append, List.dropWhile_cons,
      h c (List.mem_cons_self c cs), if_true]
    exact ih fun d hd => h d (List.mem_cons_of_mem c hd)

theorem pyStripL_of_no_space {l : List Char}
    (h : ∀ c ∈ l, isSpc c = false) : pyStripL l = l := by
  unfold pyStripL
  rw [dropWhile_eq_self_of_all h,
    dropWhile_eq_self_of_all fun c hc => h c (List.mem_reverse.mp hc),
    List.reverse_reverse]

theorem pyStripL_append_space {l : List Char} (hne : l ≠ [])
    (h : ∀ c ∈ l, isSpc c = false) : pyStripL (l ++ [' ']) = l := by
  unfold pyStripL
  have h1 : (l ++ [' ']).dropWhile isSpc = l ++ [' '] := by
    cases l with
    | nil => exact absurd rfl hne
    | cons c cs =>
      simp [List.dropWhile_cons, h c (List.mem_cons_self c cs)]
  have h2 : (l ++ [' ']).reverse = ' ' :: l.reverse := by simp
  have h3 : (' ' :: l.reverse).dropWhile isSpc = l.reverse.dropWhile isSpc := by
    simp [List.dropWhile_cons, isSpc]
  rw [h1, h2, h3,
    dropWhile_eq_self_of_all fun c hc => h c (List.mem_reverse.mp hc),
    List.reverse_reverse]

theorem pyStripL_cons_space (l : List Char) :
    pyStripL (' ' :: l) = pyStripL l := by
  unfold pyStripL
  have h3 : (' ' :: l).dropWhile isSpc = l.dropWhile isSpc := by
    simp [List.dropWhile_cons, isSpc]
  rw [h3]

theorem pySplitComma_ne_nil (l : List Char) : pySplitComma l ≠ [] := by
  cases l with
  | nil => simp [pySplitComma]
  | cons c rest =>
    unfold pySplitComma
    cases h : pySplitComma rest with
    | nil => simp
    | cons g gs => by_cases hc : c = ',' <;> simp [hc]

theorem pySplitComma_append (a b : List Char) (h : ',' ∉ a) :
    pySplitComma (a ++ ',' :: b) = a :: pySplitComma b := by
  induction a with
  | nil =>
    show pySplitComma (',' :: b) = [] :: pySplitComma b
    conv_lhs => rw [pySplitComma]
    cases hg : pySplitComma b with
    | nil => exact absurd hg (pySplitComma_ne_nil b)
    | cons g gs => simp
  | cons c a' ih =>
    have hc : c ≠ ',' := fun hh => h (by simp [hh])
    have h' : ',' ∉ a' := fun hh => h (List.mem_cons_of_mem c hh)
    show pySplitComma (c :: (a' ++ ',' :: b)) = (c :: a') :: pySplitComma b
    conv_lhs => rw [pySplitComma]
    rw [ih h']
    simp [hc]

theorem pySplitComma_no_comma (a : List Char) (h : ',' ∉ a) :
    pySplitComma a = [a] := by
  induction a with
  | nil => rfl
  | cons c a' ih =>
    have hc : c ≠ ',' := fun hh => h (by simp [hh])
    have h' : ',' ∉ a' := fun hh => h (List.mem_cons_of_mem c hh)
    conv_lhs => rw [pySplitComma]
    rw [ih h']
    simp [hc]

theorem pySplitComma_space_strip (l : List Char) :
    (pySplitComma (' ' :: l)).map pyStripL = (pySplitComma l).map pyStripL := by
  conv_lhs => rw [pySplitComma]
  cases hg : pySplitComma l with
  | nil => exact absurd hg (pySplitComma_ne_nil l)
  | cons g gs => simp [pyStripL_cons_space]

theorem goodAddr_facts {a : String} (h : goodAddr a = true) :
    a.data ≠ [] ∧ (',' ∉ a.data) ∧ (∀ c ∈ a.data, isSpc c = false) := by
  rw [goodAddr, Bool.and_eq_true] at h
  obtain ⟨h0, h1⟩ := h
  rw [List.all_eq_true] at h1
  refine ⟨?_, ?_, ?_⟩
  · intro hh
    rw [Bool.not_eq_true'] at h0
    rw [hh] at h0
    exact absurd h0 (by decide)
  · intro hm
    exact absurd rfl (goodAddr_char (h1 ',' hm)).2.2.1
  · exact fun c hc => (goodAddr_char (h1 c hc)).2.2.2

/-- The `parseaddr` model inverts the `formataddr` model on the plain
address grammar (exactly the inputs on which both stdlib models are
faithful). -/
theorem parseaddrM_formataddrM (name email : String)
    (hn : goodName name = true) (he : goodAddr email = true) :
    parseaddrM (formataddrM name email) = (name, email) := by
  rw [goodName, Bool.and_eq_true] at hn
  obtain ⟨hne0, hall0⟩ := hn
  rw [goodAddr, Bool.and_eq_true] at he
  obtain ⟨hee0, heall0⟩ := he
  have hne : name.data ≠ [] := by
    intro h
    rw [Bool.not_eq_true'] at hne0
    rw [h] at hne0
    exact absurd hne0 (by decide)
  rw [List.all_eq_true] at hall0 heall0
  have hname_ne : name ≠ "" := by
    intro h
    apply hne
    rw [h]
  have hdata : (name ++ " <" ++ email ++ ">").data
      = name.data ++ ' ' :: '<' :: (email.data ++ ['>']) := by
    rw [String.data_append, String.data_append, String.data_append]
    rw [show (" <" : String).data = [' ', '<'] from rfl,
      show (">" : String).data = ['>'] from rfl]
    simp
  unfold formataddrM
  rw [if_neg hname_ne]
  unfold parseaddrM
  rw [hdata]
  have hcont : (name.data ++ ' ' :: '<' :: (email.data ++ ['>'])).contains '<'
      = true := by
    simp [List.contains]
  rw [if_pos hcont]
  have hlt : ∀ c ∈ name.data, (fun c => decide (c ≠ '<')) c = true := by
    intro c hc
    simp only [decide_eq_true_eq]
    exact ne_of_alphanum (hall0 c hc)
      (show Char.isAlphanum '<' = false by decide)
  have htake : (name.data ++ ' ' :: '<' :: (email.data ++ ['>'])).takeWhile
      (fun c => decide (c ≠ '<')) = name.data ++ [' '] := by
    rw [takeWhile_append_of_all hlt]
    simp [List.takeWhile_cons]
  have hdrop : (name.data ++ ' ' :: '<' :: (email.data ++ ['>'])).dropWhile
      (fun c => decide (c ≠ '<')) = '<' :: (email.data ++ ['>']) := by
    rw [dropWhile_append_of_all hlt]
    simp [List.dropWhile_cons]
  have htake2 : (email.data ++ ['>']).takeWhile (fun c => decide (c ≠ '>'))
      = email.data := by
    rw [takeWhile_append_of_all (fun c hc => by
      simp only [decide_eq_true_eq]
      exact (goodAddr_char (heall0 c hc)).2.1)]
    simp [List.takeWhile_cons]
  dsimp only
  rw [htake, hdrop]
  rw [pyStripL_append_space hne
    (fun c hc => alphanum_not_spc (hall0 c hc))]
  simp only [List.drop_succ_cons, List.drop_zero]
  rw [htake2]

/-- Splitting the `", "`-joined plain addresses back on commas and
stripping each segment recovers one parsed address per recipient. -/
theorem parse_address_list_join_length (tos : List String) (hne : tos ≠ [])
    (hgood : ∀ a ∈ tos, goodAddr a = true) :
    (parse_address_list (some (pyJoinCS tos))).length = tos.length := by
  induction tos with
  | nil => exact absurd rfl hne
  | cons a rest ih =>
    obtain ⟨ha0, ha1, ha2⟩ :=
      goodAddr_facts (hgood a (List.mem_cons_self a rest))
    have hie : a.data.isEmpty = false := by
      cases hx : a.data with
      | nil => exact absurd hx ha0
      | cons c cs => rfl
    cases rest with
    | nil =>
      show (parse_address_list (some (String.mk (joinCS [a])))).length = 1
      rw [show joinCS [a] = a.data from rfl]
      have hane : String.mk a.data ≠ "" :=
        fun hh => ha0 (congrArg String.data hh)
      unfold parse_address_list
      dsimp only
      rw [if_neg hane]
      rw [show (String.mk a.data).data = a.data from rfl]
      rw [pySplitComma_no_comma a.data ha1]
      simp [pyStripL_of_no_space ha2, List.filterMap_cons, ha0]
    | cons b rs =>
      obtain ⟨hb0, _, _⟩ := goodAddr_facts (hgood b (by simp))
      have hjoin_ne : joinCS (b :: rs) ≠ [] := by
        cases rs with
        | nil => exact hb0
        | cons r rs' =>
          intro hh
          rw [show joinCS (b :: r :: rs')
              = b.data ++ ',' :: ' ' :: joinCS (r :: rs') from rfl] at hh
          exact absurd hh (by simp)
      show (parse_address_list
        (some (String.mk (joinCS (a :: b :: rs))))).length = rs.length + 2
      rw [show joinCS (a :: b :: rs)
          = a.data ++ ',' :: ' ' :: joinCS (b :: rs) from rfl]
      have hane : String.mk (a.data ++ ',' :: ' ' :: joinCS (b :: rs)) ≠ "" := by
        intro hh
        have h2 := congrArg String.data hh
        exact absurd h2 (by simp)
      unfold parse_address_list
      dsimp only
      rw [if_neg hane]
      rw [pySplitComma_append a.data _ ha1]
      rw [List.map_cons, List.filterMap_cons]
      rw [pyStripL_of_no_space ha2]
      rw [pySplitComma_space_strip (joinCS (b :: rs))]
      have hbne : pyJoinCS (b :: rs) ≠ "" :=
        fun hh => hjoin_ne (congrArg String.data hh)
      have ih' := ih (by simp) (fun x hx => hgood x (List.mem_cons_of_mem a hx))
      unfold parse_address_list at ih'
      dsimp only at ih'
      rw [if_neg hbne] at ih'
      simp only [pyJoinCS] at ih'
      simp at ih'
      simp [hie, ih']

/-- C3 (amended): whenever `_extract_body`'s walk collects a non-empty
plain or HTML part, the parsed Email has a non-empty `body_plain` or
`body_html`; and when only HTML was collected, `body_plain` is synthesized
from that HTML by the converter (a message with no non-empty body part —
e.g. an empty body — yields both fields empty). -/
theorem c3_body_presence_and_synthesis (cfg : PCfg) (m : Msg) (uid : String)
    (flags : List String) :
    (rawBody m ≠ ("", "") →
      (parse_email cfg m uid flags).body_plain ≠ "" ∨
      (parse_email cfg m uid flags).body_html ≠ "") ∧
    (∀ h : String, h ≠ "" → rawBody m = ("", h) →
      (parse_email cfg m uid flags).body_plain = html_to_text cfg h ∧
      (parse_email cfg m uid flags).body_html = h) := by
  have hb : (parse_email cfg m uid flags).body_plain
      = (extract_body cfg m).1 := rfl
  have hh : (parse_email cfg m uid flags).body_html
      = (extract_body cfg m).2 := rfl
  constructor
  · intro hne
    rw [hb, hh]
    unfold extract_body
    rcases hr : rawBody m with ⟨p, hl⟩
    rw [hr] at hne
    dsimp only
    by_cases hp : p = ""
    · subst hp
      have hhl : hl ≠ "" := fun h => hne (by rw [h])
      simp [hhl]
    · simp [hp]
  · intro h hne0 hr
    rw [hb, hh]
    unfold extract_body
    rw [hr]
    simp [hne0, html_to_text]

/-- C3 counterexample: an empty-body plain-text message parses
successfully with `body_plain` and `body_html` both empty, so "at least
one of body_plain and body_html is non-empty" fails as stated. -/
theorem c3_counterexample_empty_body :
    (parse_email cfgW (.simple [("Subject", "x"), ("From", "a@b.c")]
        "text/plain" none (some "")) "1" []).body_plain = "" ∧
    (parse_email cfgW (.simple [("Subject", "x"), ("From", "a@b.c")]
        "text/plain" none (some "")) "1" []).body_html = "" :=
  ⟨rfl, rfl⟩

/-- The HTML-only fixture message. -/
def msgHtmlW : Msg := .simple [("Subject", "h")] "text/html" none
  (some "<b>hi</b>")

/-- C3 witness: an HTML-only message gets its `body_plain` synthesized
from the HTML. -/
theorem c3_body_presence_and_synthesis_witness :
    (parse_email cfgW msgHtmlW "1" []).body_plain
      = html_to_text cfgW "<b>hi</b>" ∧
    (parse_email cfgW msgHtmlW "1" []).body_html = "<b>hi</b>" :=
  (c3_body_presence_and_synthesis cfgW msgHtmlW "1" []).2 "<b>hi</b>"
    (by decide) rfl

theorem normNl_of_no_cr : ∀ l : List Char, '\r' ∉ l → normNl l = l
  | [], _ => rfl
  | [c], h => by
    have hc : c ≠ '\r' := fun he => h (by simp [he])
    simp [normNl, hc]
  | c :: d :: tl, h => by
    have hc : c ≠ '\r' := fun he => h (by simp [he])
    have h' : '\r' ∉ d :: tl := fun hm => h (List.mem_cons_of_mem c hm)
    have ih := normNl_of_no_cr (d :: tl) h'
    simp [normNl, hc, ih]

/-- C5 (amended): for recipients that are plain addresses (non-empty,
free of commas, angle brackets, quotes and whitespace) and an account
whose display name is non-empty alphanumeric, building an outbound
message with `send`'s message-construction steps and parsing it back with
`parse_email` yields the same subject, the same sender address, and the
same recipient count; the parsed body text is the sent body after
`set_content`'s line-ending normalization (`\r\n` and lone `\r` become
`\n`) with a trailing newline appended when absent — identical to the
sent body exactly when the body is already LF-only and
newline-terminated. -/
theorem c5_send_parse_roundtrip (cfg : PCfg) (acct : AccountConfig)
    (dateStr subject body : String) (tos : List String) (uid : String)
    (flags : List String)
    (hn : goodName acct.name = true) (he : goodAddr acct.email = true)
    (hne : tos ≠ []) (hgood : ∀ a ∈ tos, goodAddr a = true) :
    (parse_email cfg (sendBuild acct dateStr tos subject body [] "" "")
      uid flags).subject = subject ∧
    (parse_email cfg (sendBuild acct dateStr tos subject body [] "" "")
      uid flags).sender = ⟨acct.name, acct.email⟩ ∧
    (parse_email cfg (sendBuild acct dateStr tos subject body [] "" "")
      uid flags).«to».length = tos.length ∧
    (parse_email cfg (sendBuild acct dateStr tos subject body [] "" "")
      uid flags).body_plain = setContentText body ∧
    ('\r' ∉ body.data ∧ body.data.reverse.head? = some '\n' →
      (parse_email cfg (sendBuild acct dateStr tos subject body [] "" "")
        uid flags).body_plain = body) := by
  have hnamene : acct.name ≠ "" := by
    rw [goodName, Bool.and_eq_true] at hn
    intro h
    rw [Bool.not_eq_true'] at hn
    rw [h] at hn
    exact absurd hn.1 (by decide)
  have hsender : (parse_email cfg
        (sendBuild acct dateStr tos subject body [] "" "") uid flags).sender
      = Address.fromHeader (formataddrM acct.name acct.email) := rfl
  have hto : (parse_email cfg
        (sendBuild acct dateStr tos subject body [] "" "") uid flags).«to»
      = parse_address_list (some (pyJoinCS tos)) := rfl
  have hbody : (parse_email cfg
        (sendBuild acct dateStr tos subject body [] "" "") uid
        flags).body_plain = setContentText body := rfl
  refine ⟨rfl, ?_, ?_, hbody, ?_⟩
  · rw [hsender]
    unfold Address.fromHeader
    rw [parseaddrM_formataddrM acct.name acct.email hn he]
    simp [hnamene]
  · rw [hto]
    exact parse_address_list_join_length tos hne hgood
  · intro h
    rw [hbody]
    unfold setContentText
    dsimp only
    rw [normNl_of_no_cr body.data h.1, if_pos h.2]

/-- C5 counterexample: a body without a trailing newline does not
round-trip identically — `set_content` appends one, so the parsed
`body_plain` is `"hello\n"`, not the sent `"hello"`. -/
theorem c5_counterexample_trailing_newline :
    (parse_email cfgW (sendBuild acctW "Mon" ["bob@example.com"] "Hi"
        "hello" [] "" "") "0" []).body_plain = "hello\n" ∧
    ("hello\n" : String) ≠ "hello" :=
  ⟨rfl, by decide⟩

/-- C5 witness: a concrete account, recipient list, subject and body. -/
theorem c5_send_parse_roundtrip_witness :
    (parse_email cfgW (sendBuild acctW "Mon" ["bob@example.com"] "Hi"
      "hello" [] "" "") "0" []).subject = "Hi" ∧
    (parse_email cfgW (sendBuild acctW "Mon" ["bob@example.com"] "Hi"
      "hello" [] "" "") "0" []).sender = ⟨acctW.name, acctW.email⟩ ∧
    (parse_email cfgW (sendBuild acctW "Mon" ["bob@example.com"] "Hi"
      "hello" [] "" "") "0" []).«to».length = ["bob@example.com"].length ∧
    (parse_email cfgW (sendBuild acctW "Mon" ["bob@example.com"] "Hi"
      "hello" [] "" "") "0" []).body_plain = setContentText "hello" ∧
    ('\r' ∉ ("hello" : String).data ∧
        ("hello" : String).data.reverse.head? = some '\n' →
      (parse_email cfgW (sendBuild acctW "Mon" ["bob@example.com"] "Hi"
        "hello" [] "" "") "0" []).body_plain = "hello") :=
  c5_send_parse_roundtrip cfgW acctW "Mon" "Hi" "hello" ["bob@example.com"]
    "0" [] (by decide) (by decide) (by decide) (by decide)

/-- C7: `search` builds the OR-of-subject-or-sender criterion over the
escaped query, takes only the tail `min(n, 50)` of the returned id list,
issues one fetch for exactly those ids, and returns their parsed headers
newest-first (reversed). -/
theorem c7_search_caps_and_reverses (cfg : PCfg) (t : Transport)
    (query folder : String) (n : Nat) (ds : String)
    (pairs : List (String × Msg))
    (hsel : t.selectR (quoteF folder) = ("OK", n))
    (hsearch : t.searchR (criteria query) = ("OK", some ds))
    (hne : pySplitWS ds.data ≠ [])
    (hfetch : t.fetchR (String.mk (joinC ((pySplitWS ds.data).drop
        ((pySplitWS ds.data).length - 50)))) = ("OK", interleave pairs)) :
    search cfg (some t) query folder =
      (.ok ((pairs.map (parsePair cfg)).reverse),
        [.selectCmd (quoteF folder), .searchCmd (criteria query),
         .fetchCmd (String.mk (joinC ((pySplitWS ds.data).drop
           ((pySplitWS ds.data).length - 50))))]) ∧
    ((pySplitWS ds.data).drop ((pySplitWS ds.data).length - 50)).length
      = min (pySplitWS ds.data).length 50 := by
  have h1 : select_folder (some t) folder
      = (.ok n, [.selectCmd (quoteF folder)]) := by
    simp [select_folder, hsel]
  have hdlen : ((pySplitWS ds.data).drop
      ((pySplitWS ds.data).length - 50)).length
      = min (pySplitWS ds.data).length 50 := by
    rw [List.length_drop]
    omega
  have hpos : 0 < (pySplitWS ds.data).length := List.length_pos.mpr hne
  refine ⟨?_, hdlen⟩
  unfold search
  dsimp only
  rw [h1]
  simp only [hsearch]
  norm_num
  have hcond : ¬ ((pySplitWS ds.data).length
      ≤ (pySplitWS ds.data).length - 50) := by omega
  rw [if_neg hcond]
  simp [hfetch, processItems_interleave]

/-- Three metadata/message pairs for the concrete search witness. -/
def pairsW7 : List (String × Msg) :=
  [("UID 1 FLAGS ()", msgW1), ("UID 2 FLAGS ()", msgW1),
   ("UID 3 FLAGS ()", msgW1)]

/-- A transport whose search returns ids 1 2 3. -/
def tW7 : Transport where
  listR := ("OK", [])
  statusR := fun _ => ("OK", none)
  selectR := fun _ => ("OK", 3)
  fetchR := fun r => if r = "1,2,3" then ("OK", interleave pairsW7)
    else ("NO", [])
  uidFetchR := fun _ => ("NO", [])
  storeR := fun _ _ _ => "OK"
  copyR := fun _ _ => .ok "OK"
  searchR := fun c => if c = criteria "alice" then ("OK", some "1 2 3")
    else ("NO", none)

/-- C7 witness: a concrete search returning three ids. -/
theorem c7_search_caps_and_reverses_witness :
    search cfgW (some tW7) "alice" "INBOX" =
      (.ok ((pairsW7.map (parsePair cfgW)).reverse),
        [.selectCmd (quoteF "INBOX"), .searchCmd (criteria "alice"),
         .fetchCmd (String.mk (joinC ((pySplitWS ("1 2 3" : String).data).drop
           ((pySplitWS ("1 2 3" : String).data).length - 50))))]) ∧
    ((pySplitWS ("1 2 3" : String).data).drop
      ((pySplitWS ("1 2 3" : String).data).length - 50)).length
      = min (pySplitWS ("1 2 3" : String).data).length 50 :=
  c7_search_caps_and_reverses cfgW tW7 "alice" "INBOX" 3 "1 2 3" pairsW7
    rfl rfl (by decide) rfl

end CliMail
